import Mathlib

/-
Verification of the Plume Nostr relay client engine (relay.rs, main.rs,
websocket/) against its natural-language specification.

The streaming JSON tokenizer (Actson / the push JSON parser) is an external
collaborator consumed through a fixed callback interface, so relay-message
parsing is modelled as a state machine over the stream of JSON tokens the
tokenizer emits for a message.  Network, time and filesystem effects are
modelled by explicit traces passed to the functions that consume them.
-/

set_option maxRecDepth 10000

/-- Nostr event, as in nostr.rs (struct Event).  created_at is u64, kind is u32. -/
structure Event where
  id : String
  pubkey : String
  created_at : Nat
  kind : Nat
  tags : List (List String)
  content : String
  sig : String
deriving Repr, DecidableEq

/-- NIP-04 encrypted direct message kind (nostr.rs KIND_DM). -/
def KIND_DM : Nat := 4

/-- Typed relay-to-client message, as in relay.rs (enum RelayMessage). -/
inductive RelayMessage where
  | event (subscription_id : String) (event : Event)
  | endOfStoredEvents (subscription_id : String)
  | notice (message : String)
  | ok (event_id : String) (success : Bool) (message : String)
  | unknown (raw : String)
deriving Repr, DecidableEq

/-- Message crossing the producer/consumer channel (relay.rs enum StreamMessage). -/
inductive StreamMessage where
  | event (event : Event)
  | eose
  | notice (message : String)
deriving Repr, DecidableEq

/-- One JSON token delivered by the streaming JSON tokenizer (Actson JsonEvent /
the push-parser callback interface).  The tokenizer itself is an external
collaborator; numeric values carry the integer the tokenizer reports. -/
inductive JsonEvent where
  | startArray
  | endArray
  | startObject
  | endObject
  | fieldName (s : String)
  | valueString (s : String)
  | valueInt (n : Int)
  | valueFloat (n : Int)
  | valueTrue
  | valueFalse
  | valueNull
deriving Repr, DecidableEq

/-- Mutable scratch state of parse_relay_message_actson (relay.rs lines 326-346). -/
structure ActsonState where
  depth : Int
  top_level_index : Int
  msg_type : Option String
  second_str : Option String
  sub_id : Option String
  ok_event_id : Option String
  ok_success : Bool
  ok_message : Option String
  current_field : Option String
  event_id : Option String
  event_pubkey : Option String
  event_created_at : Nat
  event_kind : Nat
  event_content : String
  event_sig : Option String
  event_tags : List (List String)
  current_tag : List String
  tags_depth : Int
deriving Repr, DecidableEq

/-- Initial parse state (relay.rs lines 326-346: all fields zero/empty/None). -/
def actsonInit : ActsonState :=
  { depth := 0, top_level_index := -1, msg_type := none, second_str := none
  , sub_id := none, ok_event_id := none, ok_success := false, ok_message := none
  , current_field := none, event_id := none, event_pubkey := none
  , event_created_at := 0, event_kind := 0, event_content := ""
  , event_sig := none, event_tags := [], current_tag := [], tags_depth := 0 }

/-- Event built on EndObject of the EVENT payload (relay.rs lines 403-411). -/
def actsonBuildEvent (st : ActsonState) : Event :=
  { id := st.event_id.getD ""
  , pubkey := st.event_pubkey.getD ""
  , created_at := st.event_created_at
  , kind := st.event_kind
  , tags := st.event_tags
  , content := st.event_content
  , sig := st.event_sig.getD "" }

/-- One iteration of the parse loop of parse_relay_message_actson
(relay.rs lines 348-495), translated branch for branch.  Returns the updated
state plus the message when the Rust code would return early (EndObject of the
EVENT payload at depth 1). -/
def actsonStep (st : ActsonState) (ev : JsonEvent) : ActsonState × Option RelayMessage :=
  match ev with
  | .startArray =>
      let st := { st with depth := st.depth + 1 }
      if st.depth = 1 then ({ st with top_level_index := 0 }, none)
      else if st.tags_depth = 1 then ({ st with tags_depth := 2 }, none)
      else if st.tags_depth = 2 then ({ st with current_tag := [] }, none)
      else (st, none)
  | .endArray =>
      let st :=
        if st.tags_depth = 2 ∧ st.depth = 4 then
          let tags' := if st.current_tag.isEmpty then st.event_tags
                       else st.event_tags ++ [st.current_tag]
          { st with event_tags := tags', current_tag := [] }
        else if st.tags_depth = 2 ∧ st.depth = 3 then { st with tags_depth := 0 }
        else st
      ({ st with depth := st.depth - 1 }, none)
  | .startObject =>
      let st := { st with depth := st.depth + 1 }
      let st := if st.depth = 1 then { st with top_level_index := st.top_level_index + 1 }
                else st
      if st.depth = 2 ∧ st.msg_type = some "EVENT" then
        let st := { st with
          current_field := none, event_id := none, event_pubkey := none,
          event_created_at := 0, event_kind := 0, event_content := "",
          event_sig := none, event_tags := [] }
        (st, none)
      else (st, none)
  | .endObject =>
      let st := { st with depth := st.depth - 1 }
      if st.depth = 1 ∧ st.msg_type = some "EVENT" ∧ st.second_str.isSome then
        (st, some (.event (st.sub_id.getD "") (actsonBuildEvent st)))
      else (st, none)
  | .fieldName s =>
      let st := { st with current_field := some s }
      if st.depth = 2 ∧ s = "tags" then ({ st with tags_depth := 1 }, none)
      else (st, none)
  | .valueString s =>
      if st.depth = 1 then
        let st := { st with top_level_index := st.top_level_index + 1 }
        if st.top_level_index = 1 then ({ st with msg_type := some s }, none)
        else if st.top_level_index = 2 then
          ({ st with second_str := some s, sub_id := some s, ok_event_id := some s }, none)
        else if st.top_level_index = 4 ∧ st.msg_type = some "OK" then
          ({ st with ok_message := some s }, none)
        else (st, none)
      else if st.depth ≥ 2 ∧ st.tags_depth = 0 then
        if st.tags_depth = 2 then
          ({ st with current_tag := st.current_tag ++ [s] }, none)
        else
          match st.current_field with
          | some f =>
              if f = "id" then ({ st with event_id := some s }, none)
              else if f = "pubkey" then ({ st with event_pubkey := some s }, none)
              else if f = "content" then ({ st with event_content := s }, none)
              else if f = "sig" then ({ st with event_sig := some s }, none)
              else (st, none)
          | none => (st, none)
      else (st, none)
  | .valueInt n =>
      if st.depth = 2 then
        match st.current_field with
        | some f =>
            if f = "created_at" then
              if -9223372036854775808 ≤ n ∧ n < 9223372036854775808 then
                ({ st with event_created_at := n.toNat }, none)
              else (st, none)
            else if f = "kind" then
              if -2147483648 ≤ n ∧ n < 2147483648 then
                ({ st with event_kind := n.toNat }, none)
              else (st, none)
            else (st, none)
        | none => (st, none)
      else (st, none)
  | .valueFloat n =>
      if st.depth = 2 then
        match st.current_field with
        | some f =>
            if f = "created_at" then ({ st with event_created_at := n.toNat }, none)
            else if f = "kind" then ({ st with event_kind := n.toNat }, none)
            else (st, none)
        | none => (st, none)
      else (st, none)
  | .valueTrue =>
      if st.depth = 1 then
        let st := { st with top_level_index := st.top_level_index + 1 }
        if st.top_level_index = 3 ∧ st.msg_type = some "OK" then
          ({ st with ok_success := true }, none)
        else (st, none)
      else (st, none)
  | .valueFalse =>
      if st.depth = 1 then
        let st := { st with top_level_index := st.top_level_index + 1 }
        if st.top_level_index = 3 ∧ st.msg_type = some "OK" then
          ({ st with ok_success := false }, none)
        else (st, none)
      else (st, none)
  | .valueNull => (st, none)

/-- Drive the parse loop over the token stream, stopping at an early return. -/
def actsonLoop (st : ActsonState) : List JsonEvent → ActsonState ⊕ RelayMessage
  | [] => .inl st
  | ev :: rest =>
      match actsonStep st ev with
      | (st', none) => actsonLoop st' rest
      | (_, some m) => .inr m

/-- End-of-input dispatch of parse_relay_message_actson (relay.rs lines 497-513). -/
def actsonFinish (raw : String) (st : ActsonState) : RelayMessage :=
  match st.msg_type with
  | some "EOSE" => .endOfStoredEvents (st.second_str.getD "")
  | some "NOTICE" => .notice (st.second_str.getD "Unknown notice")
  | some "OK" => .ok (st.ok_event_id.getD "") st.ok_success (st.ok_message.getD "")
  | _ => .unknown raw

/-- Model of parse_relay_message_actson (relay.rs lines 321-514): the raw
message text plus the token stream the tokenizer emits for it. -/
def parse_relay_message_actson (raw : String) (tokens : List JsonEvent) : RelayMessage :=
  match actsonLoop actsonInit tokens with
  | .inl st => actsonFinish raw st
  | .inr m => m

/-- Token stream of the C1 test message from the spec. -/
def c1Tokens : List JsonEvent :=
  [ .startArray, .valueString "EVENT", .valueString "sub1", .startObject
  , .fieldName "id", .valueString "a"
  , .fieldName "pubkey", .valueString "b"
  , .fieldName "created_at", .valueInt 1
  , .fieldName "kind", .valueInt 1
  , .fieldName "tags", .startArray
  , .startArray, .valueString "e", .valueString "x", .endArray
  , .startArray, .valueString "p", .valueString "y", .endArray
  , .endArray
  , .fieldName "content", .valueString "hi"
  , .fieldName "sig", .valueString "s"
  , .endObject, .endArray ]

/-- JSON value as produced by the blocking-path JSON collaborator
(the json crate used by parse_relay_message).  Numbers are modelled by the
integer the parser reports. -/
inductive JsonValue where
  | null
  | bool (b : Bool)
  | num (n : Int)
  | str (s : String)
  | arr (xs : List JsonValue)
  | obj (kvs : List (String × JsonValue))

/-- Array indexing of the json crate: parsed[i] is Null for a non-array or an
out-of-range index. -/
def JsonValue.idx (v : JsonValue) (i : Nat) : JsonValue :=
  match v with
  | .arr xs => xs.getD i .null
  | _ => .null

/-- is_array of the json crate. -/
def JsonValue.is_array : JsonValue → Bool
  | .arr _ => true
  | _ => false

/-- is_string of the json crate. -/
def JsonValue.is_string : JsonValue → Bool
  | .str _ => true
  | _ => false

/-- as_str of the json crate (Some only for strings). -/
def JsonValue.as_str : JsonValue → Option String
  | .str s => some s
  | _ => none

/-- as_bool of the json crate (Some only for booleans). -/
def JsonValue.as_bool : JsonValue → Option Bool
  | .bool b => some b
  | _ => none

mutual

/-- Token stream the push JSON parser emits when fed the canonical dump of a
JSON value (parsed[2].dump() re-parsed by nostr.rs parse_json_str). -/
def tokensOf : JsonValue → List JsonEvent
  | .null => [.valueNull]
  | .bool true => [.valueTrue]
  | .bool false => [.valueFalse]
  | .num n => [.valueInt n]
  | .str s => [.valueString s]
  | .arr xs => .startArray :: tokensOfArr xs ++ [.endArray]
  | .obj kvs => .startObject :: tokensOfObj kvs ++ [.endObject]

/-- Token stream of the elements of a JSON array, in order. -/
def tokensOfArr : List JsonValue → List JsonEvent
  | [] => []
  | v :: rest => tokensOf v ++ tokensOfArr rest

/-- Token stream of the members of a JSON object: each key then its value. -/
def tokensOfObj : List (String × JsonValue) → List JsonEvent
  | [] => []
  | (k, v) :: rest => .fieldName k :: (tokensOf v ++ tokensOfObj rest)

end

/-- Mutable state of nostr.rs EventHandler (lines 147-159). -/
structure EventHandlerState where
  depth : Int
  current_field : Option String
  id : Option String
  pubkey : Option String
  created_at : Nat
  kind : Nat
  content : String
  sig : Option String
  tags : List (List String)
  current_tag : List String
  tags_depth : Int
deriving Repr, DecidableEq

/-- Fresh EventHandler (nostr.rs EventHandler::new). -/
def eventHandlerInit : EventHandlerState :=
  { depth := 0, current_field := none, id := none, pubkey := none
  , created_at := 0, kind := 0, content := "", sig := none
  , tags := [], current_tag := [], tags_depth := 0 }

/-- One JsonContentHandler callback of nostr.rs EventHandler (lines 191-258),
translated branch for branch. -/
def eventHandlerStep (st : EventHandlerState) (ev : JsonEvent) : EventHandlerState :=
  match ev with
  | .startObject => { st with depth := st.depth + 1 }
  | .endObject => { st with depth := st.depth - 1 }
  | .startArray =>
      let st := { st with depth := st.depth + 1 }
      if st.tags_depth = 1 then { st with tags_depth := 2, current_tag := [] }
      else if st.tags_depth = 2 then { st with current_tag := [] }
      else st
  | .endArray =>
      let st :=
        if st.tags_depth = 2 ∧ st.depth = 3 then
          let tags' := if st.current_tag.isEmpty then st.tags else st.tags ++ [st.current_tag]
          { st with tags := tags', current_tag := [] }
        else if st.tags_depth = 2 ∧ st.depth = 2 then { st with tags_depth := 0 }
        else if st.tags_depth = 1 ∧ st.depth = 2 then { st with tags_depth := 0 }
        else st
      { st with depth := st.depth - 1 }
  | .fieldName k =>
      let st := { st with current_field := some k }
      if st.depth = 1 ∧ k = "tags" then { st with tags_depth := 1 } else st
  | .valueString s =>
      if st.tags_depth = 2 then { st with current_tag := st.current_tag ++ [s] }
      else if st.depth = 1 then
        match st.current_field with
        | some f =>
            if f = "id" then { st with id := some s }
            else if f = "pubkey" then { st with pubkey := some s }
            else if f = "content" then { st with content := s }
            else if f = "sig" then { st with sig := some s }
            else st
        | none => st
      else st
  | .valueInt n =>
      if st.depth = 1 then
        match st.current_field with
        | some f =>
            if f = "created_at" then { st with created_at := min n.toNat 18446744073709551615 }
            else if f = "kind" then { st with kind := min n.toNat 4294967295 }
            else st
        | none => st
      else st
  | .valueFloat n =>
      if st.depth = 1 then
        match st.current_field with
        | some f =>
            if f = "created_at" then { st with created_at := min n.toNat 18446744073709551615 }
            else if f = "kind" then { st with kind := min n.toNat 4294967295 }
            else st
        | none => st
      else st
  | .valueTrue => st
  | .valueFalse => st
  | .valueNull => st

/-- take_event of nostr.rs EventHandler (lines 178-188): id, pubkey and sig are
required, the rest default.  (Error texts abridged without quote marks.) -/
def take_event (st : EventHandlerState) : Except String Event :=
  match st.id, st.pubkey, st.sig with
  | some i, some p, some s =>
      .ok { id := i, pubkey := p, created_at := st.created_at, kind := st.kind
          , tags := st.tags, content := st.content, sig := s }
  | none, _, _ => .error ("Missing id field")
  | some _, none, _ => .error ("Missing pubkey field")
  | some _, some _, none => .error ("Missing sig field")

/-- Model of nostr.rs parse_event (line 347): run the push parser callbacks of
EventHandler over the token stream of the dumped event value, then take_event. -/
def parse_event (v : JsonValue) : Except String Event :=
  take_event ((tokensOf v).foldl eventHandlerStep eventHandlerInit)

/-- Model of relay.rs parse_relay_message (lines 212-310) on an already-parsed
JSON value (json::parse failure, lines 213-216, is a further error path that
precedes this function and is not modelled). -/
def parse_relay_message (parsed : JsonValue) (message : String) : Except String RelayMessage :=
  if ¬ parsed.is_array then .error ("Relay message is not an array")
  else
    match (parsed.idx 0).as_str with
    | none => .error ("Message type is not a string")
    | some msg_type =>
      if msg_type = "EVENT" then
        match (parsed.idx 1).as_str with
        | none => .error ("Missing subscription_id in EVENT")
        | some subscription_id =>
          match parse_event (parsed.idx 2) with
          | .error e => .error e
          | .ok event => .ok (.event subscription_id event)
      else if msg_type = "EOSE" then
        match (parsed.idx 1).as_str with
        | none => .error ("Missing subscription_id in EOSE")
        | some subscription_id => .ok (.endOfStoredEvents subscription_id)
      else if msg_type = "NOTICE" then
        let notice_message := ((parsed.idx 1).as_str).getD "Unknown notice"
        .ok (.notice notice_message)
      else if msg_type = "OK" then
        let event_id := ((parsed.idx 1).as_str).getD ""
        let success := ((parsed.idx 2).as_bool).getD false
        let ok_message := ((parsed.idx 3).as_str).getD ""
        .ok (.ok event_id success ok_message)
      else .ok (.unknown message)

/-- True when a per-relay fetch result is the error case. -/
def fetchFailed (r : Except String (List Event)) : Bool :=
  match r with
  | .error _ => true
  | .ok _ => false

/-- Concatenation step of fetch_notes_from_relays (main.rs lines 301-313): events
of successful relays are appended in relay order, failures contribute nothing. -/
def okEvents (results : List (Except String (List Event))) : List Event :=
  results.flatMap fun r =>
    match r with
    | .ok evs => evs
    | .error _ => []

/-- Dedup loop of fetch_notes_from_relays (main.rs lines 324-331): walk the list
keeping the first event for each id, threading the seen-id list. -/
def dedupById : List Event → List String → List Event
  | [], _ => []
  | e :: rest, seen =>
      if e.id ∈ seen then dedupById rest seen
      else e :: dedupById rest (e.id :: seen)

/-- Descending created_at comparator of the feed sort (main.rs line 322). -/
def feedLe (a b : Event) : Bool := decide (b.created_at ≤ a.created_at)

/-- Ascending created_at comparator of the reply sort (main.rs line 448). -/
def replyLe (a b : Event) : Bool := decide (a.created_at ≤ b.created_at)

/-- Model of the merge phase of fetch_notes_from_relays (main.rs lines 274-338):
the per-relay fetch outcomes are an input, one entry per configured relay, in
relay order.  Mirrors the empty-relay guard, the all-failed guard, the stable
descending sort, first-occurrence dedup by id, and the conditional truncate. -/
def fetch_notes_from_relays
    (results : List (Except String (List Event))) (limit : Nat) :
    Except String (List Event) :=
  if results.isEmpty then
    .error ("No relays provided. Configure relays in Settings.")
  else
    let all_events := okEvents results
    let fail_count := (results.filter fetchFailed).length
    if fail_count = results.length then
      .error ("Could not reach any of the configured relays. Check your connection and relay settings.")
    else
      let sorted := all_events.mergeSort feedLe
      let unique := dedupById sorted []
      .ok (if limit < unique.length then unique.take limit else unique)

/-- Model of the merge phase of fetch_replies_to_event (main.rs lines 422-451):
dedup by id in arrival order first, then stable ascending sort; per-relay
failures are only logged and the function never fails once past its guards. -/
def fetch_replies_to_event
    (event_id : String) (results : List (Except String (List Event))) :
    Except String (List Event) :=
  if event_id.isEmpty then .ok []
  else if results.isEmpty then
    .error ("No relays configured. Add relays in Settings.")
  else
    let all_events := okEvents results
    let unique := dedupById all_events []
    .ok (unique.mergeSort replyLe)

/-- Per-relay publish outcome (relay.rs struct PublishResult). -/
structure PublishResult where
  relay_url : String
  success : Bool
  message : String
deriving Repr, DecidableEq

/-- Substring test of Rust str::contains. -/
def strContains (h n : String) : Bool := decide (List.IsInfix n.toList h.toList)

/-- Lowercase one character (ASCII model of Rust to_lowercase, which only
differs on non-ASCII letters; all pubkeys and ids here are hex/ASCII). -/
def lowerChar (c : Char) : Char :=
  if 65 ≤ c.toNat ∧ c.toNat ≤ 90 then Char.ofNat (c.toNat + 32) else c

/-- Model of str::to_lowercase. -/
def strToLower (s : String) : String := String.mk (s.data.map lowerChar)

/-- One receive outcome seen by the publish wait loop, tagged with the elapsed
seconds at the top-of-loop deadline check: either a parsed relay reply or the
error string of RelayConnection::receive. -/
def PublishTrace := List (Nat × Except String JsonValue)

/-- Wait loop of publish_event_to_relay (relay.rs lines 1056-1114): deadline
check, then receive; a matching OK ends the wait with the relay verdict, a
NOTICE mentioning the event id or the word error ends it as failure, other
messages and parse errors are skipped, ping/pong receive errors are skipped,
and other receive errors end the wait with the error text.  A trace that ends
before any of these is none (the real loop would still be blocked). -/
def publishWaitLoop (relay_url : String) (event : Event) (timeout : Nat) :
    PublishTrace → Option PublishResult
  | [] => none
  | (elapsed, item) :: rest =>
      if timeout < elapsed then
        some { relay_url := relay_url, success := false
             , message := "Timeout waiting for response" }
      else
        match item with
        | .ok parsed =>
            match parse_relay_message parsed "" with
            | .ok (.ok event_id success message) =>
                if event_id = event.id then
                  some { relay_url := relay_url, success := success, message := message }
                else publishWaitLoop relay_url event timeout rest
            | .ok (.notice message) =>
                if strContains message event.id ∨ strContains (strToLower message) "error" then
                  some { relay_url := relay_url, success := false, message := message }
                else publishWaitLoop relay_url event timeout rest
            | .ok _ => publishWaitLoop relay_url event timeout rest
            | .error _ => publishWaitLoop relay_url event timeout rest
        | .error e =>
            if strContains e "ping" ∨ strContains e "pong" then
              publishWaitLoop relay_url event timeout rest
            else
              some { relay_url := relay_url, success := false, message := e }

/-- Model of publish_event_to_relay (relay.rs lines 1040-1115): connect and the
EVENT send can fail with a transport error (propagated as Err); once the event
is sent the wait loop decides the PublishResult. -/
def publish_event_to_relay (relay_url : String) (event : Event) (timeout : Nat)
    (connect_send : Except String Unit) (trace : PublishTrace) :
    Except String (Option PublishResult) :=
  match connect_send with
  | .error e => .error e
  | .ok _ => .ok (publishWaitLoop relay_url event timeout trace)

/-- One iteration outcome of a streaming read loop: a text frame (raw text plus
its token stream), a close frame or websocket error, another frame kind
(ping/pong/binary), end of stream, or a one-second read timeout. -/
inductive WsRead where
  | text (raw : String) (tokens : List JsonEvent)
  | closeOrError
  | other
  | streamEnd
  | readTimeout

/-- Read loop of run_relay_feed_stream (relay.rs lines 560-593): each item is
tagged with the elapsed seconds at its deadline check.  Returns the messages
sent on the channel inside the loop, or none when the trace ends with the loop
still running.  The channel consumer is modelled as always alive. -/
def feedLoop (timeout_seconds : Nat) : List (Nat × WsRead) → Option (List StreamMessage)
  | [] => none
  | (now, r) :: rest =>
      if timeout_seconds ≤ now then some []
      else
        match r with
        | .text raw tokens =>
            match parse_relay_message_actson raw tokens with
            | .event _ ev => (feedLoop timeout_seconds rest).map (StreamMessage.event ev :: ·)
            | .endOfStoredEvents _ => some []
            | .notice _ => feedLoop timeout_seconds rest
            | .ok _ _ _ => feedLoop timeout_seconds rest
            | .unknown _ => feedLoop timeout_seconds rest
        | .closeOrError => some []
        | .other => feedLoop timeout_seconds rest
        | .streamEnd => some []
        | .readTimeout => feedLoop timeout_seconds rest

/-- How far one feed/DM relay task got before or after connecting. -/
inductive ConnOutcome where
  | invalidUrl (e : String)
  | connectFailed
  | sendFailed
  | connected (reads : List (Nat × WsRead))

/-- Model of run_relay_feed_stream (relay.rs lines 518-596): everything the
task sends on its channel.  Url-parse failure sends one Notice; connect or
REQ-send failure returns silently; a connected task runs the read loop and then
sends the final Eose (line 595). -/
def run_relay_feed_stream (relay_url : String) (timeout_seconds : Nat) :
    ConnOutcome → Option (List StreamMessage)
  | .invalidUrl e => some [.notice ("Invalid URL " ++ relay_url ++ ": " ++ e)]
  | .connectFailed => some []
  | .sendFailed => some []
  | .connected reads =>
      (feedLoop timeout_seconds reads).map (· ++ [StreamMessage.eose])

/-- Something the feed consumer emits to the frontend. -/
inductive FeedEmit where
  | note (event : Event)
  | eoseSignal
deriving Repr, DecidableEq

/-- Consumer loop of start_feed_stream (main.rs lines 396-414): counts Eose
markers and emits the aggregate feed-eose signal (then breaks) only once
eose_count reaches num_relays; events are forwarded as notes; notices are
logged only. -/
def start_feed_stream_consumer (num_relays : Nat) (eose_count : Nat) :
    List StreamMessage → List FeedEmit
  | [] => []
  | .event ev :: rest => .note ev :: start_feed_stream_consumer num_relays eose_count rest
  | .eose :: rest =>
      if num_relays ≤ eose_count + 1 then [.eoseSignal]
      else start_feed_stream_consumer num_relays (eose_count + 1) rest
  | .notice _ :: rest => start_feed_stream_consumer num_relays eose_count rest

/-- Read loop of run_relay_dm_stream (relay.rs lines 638-670): no deadline, the
60-second read timeout only re-enters the loop; EOSE keeps the connection open
and sends nothing; only kind-4 events are sent on the channel. -/
def dmLoop : List WsRead → Option (List StreamMessage)
  | [] => none
  | r :: rest =>
      match r with
      | .text raw tokens =>
          match parse_relay_message_actson raw tokens with
          | .event _ ev =>
              if ev.kind = KIND_DM then (dmLoop rest).map (StreamMessage.event ev :: ·)
              else dmLoop rest
          | .endOfStoredEvents _ => dmLoop rest
          | .notice _ => dmLoop rest
          | .ok _ _ _ => dmLoop rest
          | .unknown _ => dmLoop rest
      | .closeOrError => some []
      | .other => dmLoop rest
      | .streamEnd => some []
      | .readTimeout => dmLoop rest

/-- Connection phase of one DM relay task. -/
inductive DmConnOutcome where
  | invalidUrl (e : String)
  | connectFailed
  | sendFailed
  | connected (reads : List WsRead)

/-- Model of run_relay_dm_stream (relay.rs lines 599-671): everything the task
sends on its channel over its whole life. -/
def run_relay_dm_stream (relay_url : String) :
    DmConnOutcome → Option (List StreamMessage)
  | .invalidUrl e => some [.notice ("Invalid URL " ++ relay_url ++ ": " ++ e)]
  | .connectFailed => some []
  | .sendFailed => some []
  | .connected reads => dmLoop reads

/-- Tag scan of get_recipient_pubkey_from_kind4: first tag of length at least
two whose first entry is p. -/
def firstPTag : List (List String) → Option String
  | [] => none
  | tag :: rest =>
      match tag with
      | t0 :: t1 :: _ => if t0 = "p" then some t1 else firstPTag rest
      | _ => firstPTag rest

/-- Model of nostr.rs get_recipient_pubkey_from_kind4 (lines 615-624): first
p tag of a kind 4 event. -/
def get_recipient_pubkey_from_kind4 (event : Event) : Option String :=
  if event.kind ≠ KIND_DM then none
  else firstPTag event.tags

/-- Model of nostr.rs other_pubkey_in_dm (lines 628-639). -/
def other_pubkey_in_dm (event : Event) (our_pubkey_hex : String) : Option String :=
  let our := strToLower our_pubkey_hex
  let sender := strToLower event.pubkey
  match get_recipient_pubkey_from_kind4 event with
  | none => none
  | some r =>
      let recipient := strToLower r
      if sender = our then some recipient
      else if recipient = our then some sender
      else none

/-- Something the DM consumer emits to the frontend. -/
inductive DmEmit where
  | dmReceived (other : String) (event : Event)
  | dmSyncDone
deriving Repr, DecidableEq

/-- Consumer loop of start_dm_stream (main.rs lines 982-1019): each channel
item carries the messages_store::append_raw_event outcome as an oracle (Ok true
means newly stored, Ok false a duplicate, error a store failure); dm-received
is emitted only for newly stored events outside initial_sync, and dm-sync-done
exactly when eose_count first reaches num_relays. -/
def start_dm_stream_consumer (our_pubkey : String) (num_relays : Nat)
    (eose_count : Nat) (initial_sync : Bool) :
    List (StreamMessage × Except String Bool) → List DmEmit
  | [] => []
  | (msg, append_result) :: rest =>
      match msg with
      | .event ev =>
          match other_pubkey_in_dm ev our_pubkey with
          | some other =>
              match append_result with
              | .ok true =>
                  if initial_sync then
                    start_dm_stream_consumer our_pubkey num_relays eose_count initial_sync rest
                  else
                    .dmReceived other ev ::
                      start_dm_stream_consumer our_pubkey num_relays eose_count initial_sync rest
              | .ok false =>
                  start_dm_stream_consumer our_pubkey num_relays eose_count initial_sync rest
              | .error _ =>
                  start_dm_stream_consumer our_pubkey num_relays eose_count initial_sync rest
          | none => start_dm_stream_consumer our_pubkey num_relays eose_count initial_sync rest
      | .eose =>
          if initial_sync ∧ num_relays ≤ eose_count + 1 then
            .dmSyncDone :: start_dm_stream_consumer our_pubkey num_relays (eose_count + 1) false rest
          else
            start_dm_stream_consumer our_pubkey num_relays (eose_count + 1) initial_sync rest
      | .notice _ =>
          start_dm_stream_consumer our_pubkey num_relays eose_count initial_sync rest

/-- Scan of handshake.rs find_header_end (lines 133-143): offset of the first
CR LF CR LF in the buffer (bytes as Nat). -/
def findHeaderEndGo (i : Nat) : List Nat → Option Nat
  | 13 :: 10 :: 13 :: 10 :: _ => some i
  | _ :: rest => findHeaderEndGo (i + 1) rest
  | [] => none

/-- Model of handshake.rs find_header_end. -/
def find_header_end (buf : List Nat) : Option Nat := findHeaderEndGo 0 buf

/-- Split a byte list on CR LF separators (str::split over the header text). -/
def splitOnCRLF : List Nat → List (List Nat)
  | 13 :: 10 :: rest => [] :: splitOnCRLF rest
  | b :: rest =>
      match splitOnCRLF rest with
      | seg :: segs => (b :: seg) :: segs
      | [] => [[b]]
  | [] => [[]]

/-- Split a byte list on spaces into at most k parts (str::splitn(k)). -/
def splitnSp (k : Nat) : List Nat → List (List Nat)
  | [] => [[]]
  | b :: rest =>
      if b = 32 ∧ 2 ≤ k then [] :: splitnSp (k - 1) rest
      else
        match splitnSp k rest with
        | seg :: segs => (b :: seg) :: segs
        | [] => [[b]]

/-- ASCII digit list to number, none when empty or non-digit. -/
def digitsToNat? : List Nat → Option Nat
  | [] => none
  | bs =>
      if bs.all (fun b => 48 ≤ b ∧ b ≤ 57) then
        some (bs.foldl (fun a b => a * 10 + (b - 48)) 0)
      else none

/-- Status-code parse of the status line: str::parse for u16 with unwrap_or(0),
accepting one optional leading plus sign. -/
def parseStatus (bs : List Nat) : Nat :=
  let digits := match bs with
    | 43 :: rest => rest
    | _ => bs
  match digitsToNat? digits with
  | some v => if v ≤ 65535 then v else 0
  | none => 0

/-- ASCII whitespace of the header trim. -/
def isWsByte (b : Nat) : Bool := b = 9 ∨ b = 10 ∨ b = 13 ∨ b = 32

/-- Model of str::trim over header bytes. -/
def trimBytes (bs : List Nat) : List Nat :=
  ((bs.dropWhile isWsByte).reverse.dropWhile isWsByte).reverse

/-- Lowercase one ASCII byte (eq_ignore_ascii_case). -/
def lowerByte (b : Nat) : Nat := if 65 ≤ b ∧ b ≤ 90 then b + 32 else b

/-- Model of str::eq_ignore_ascii_case. -/
def eqIgnoreAsciiCase (a b : List Nat) : Bool :=
  decide (a.map lowerByte = b.map lowerByte)

/-- Bytes of an ASCII string literal. -/
def asciiBytes (s : String) : List Nat := s.toList.map Char.toNat

/-- Split a header line at its first colon (line.find of the colon). -/
def findColonSplit : List Nat → Option (List Nat × List Nat)
  | [] => none
  | 58 :: rest => some ([], rest)
  | b :: rest =>
      match findColonSplit rest with
      | some (x, y) => some (b :: x, y)
      | none => none

/-- Header scan of parse_101_response (handshake.rs lines 115-127): walk the
lines after the status line, stop at an empty line, remember the last
Sec-WebSocket-Accept value seen (trimmed). -/
def findAccept (acc : Option (List Nat)) : List (List Nat) → Option (List Nat)
  | [] => acc
  | line :: rest =>
      if line.isEmpty then acc
      else
        match findColonSplit line with
        | some (name, value) =>
            if eqIgnoreAsciiCase (trimBytes name) (asciiBytes "Sec-WebSocket-Accept") then
              findAccept (some (trimBytes value)) rest
            else findAccept acc rest
        | none => findAccept acc rest

/-- Result of parse_101_response (handshake.rs struct HandshakeResponse). -/
structure HandshakeResponse where
  status : Nat
  accept : Option (List Nat)
  body_offset : Nat
deriving Repr, DecidableEq

/-- Model of handshake.rs parse_101_response (lines 85-130) over bytes.  The
from_utf8 validity check is not modelled (header bytes are treated as their
ASCII reading); none means the terminator has not arrived yet. -/
def parse_101_response (buf : List Nat) : Option HandshakeResponse :=
  match find_header_end buf with
  | none => none
  | some crlf2_pos =>
      let body_offset := crlf2_pos + 4
      let header_bytes := buf.take crlf2_pos
      match splitOnCRLF header_bytes with
      | [] => none
      | status_line :: headerLines =>
          let parts := splitnSp 3 status_line
          let status :=
            match (parts.drop 1).head? with
            | some p => parseStatus p
            | none => 0
          some { status := status, accept := findAccept none headerLines
               , body_offset := body_offset }

/-- Model of handshake.rs verify_accept (lines 58-71).  The expected value
base64(SHA1(key ++ GUID)) comes from the crypto collaborator and is passed in
as a byte list. -/
def verify_accept (accept_header : Option (List Nat)) (expected : List Nat) :
    Except String Unit :=
  match accept_header with
  | some h => if trimBytes h = expected then .ok () else .error ("Sec-WebSocket-Accept mismatch")
  | none => .error ("missing Sec-WebSocket-Accept")

/-- Connection state after the handshake (connection.rs WebSocketConnection):
the read buffer starts as the initial_data handed over by connect
(WebSocketConnection::new, lines 41-51). -/
structure WebSocketConnection where
  read_buf : List Nat
deriving Repr, DecidableEq

/-- Handshake read loop of WebSocketClient::connect (client.rs lines 83-116):
each chunk is one stream read; an empty read is EOF.  On a complete response it
checks status 101 and the accept header, then hands every byte after the
header terminator to the new connection.  none covers the error returns and a
trace that ends before the terminator. -/
def connectHandshakeLoop (expected : List Nat) (acc : List Nat) :
    List (List Nat) → Option WebSocketConnection
  | [] => none
  | chunk :: rest =>
      if chunk.isEmpty then none
      else
        let buf := acc ++ chunk
        match parse_101_response buf with
        | none => connectHandshakeLoop expected buf rest
        | some resp =>
            if resp.status ≠ 101 then none
            else
              match verify_accept resp.accept expected with
              | .error _ => none
              | .ok _ => some { read_buf := buf.drop resp.body_offset }

/-- Model of WebSocketClient::connect (client.rs lines 42-116) from the point
the request has been written: the response chunks decide the outcome. -/
def WebSocketClient_connect (expected : List Nat) (chunks : List (List Nat)) :
    Option WebSocketConnection :=
  connectHandshakeLoop expected [] chunks

/-- One decoded frame as delivered to the FrameHandler callback. -/
structure Frame where
  opcode : Nat
  fin : Bool
  payload : List Nat
deriving Repr, DecidableEq

/-- Big-endian byte-list value (extended payload lengths). -/
def beVal (bs : List Nat) : Nat := bs.foldl (fun a b => a * 256 + b) 0

/-- Cyclic XOR unmasking of a masked payload. -/
def unmask (key : List Nat) (payload : List Nat) : List Nat :=
  payload.enum.map fun p => Nat.xor p.2 (key.getD (p.1 % 4) 0)

/-- Extended-length field size from the 7-bit length (RFC 6455). -/
def frameExtLen (len7 : Nat) : Nat := if len7 = 126 then 2 else if len7 = 127 then 8 else 0

/-- Mask-key field size. -/
def frameMaskLen (masked : Bool) : Nat := if masked then 4 else 0

/-- Payload length: the 7-bit value, or the big-endian extended bytes. -/
def framePayloadLen (len7 : Nat) (ext : List Nat) : Nat :=
  if len7 ≤ 125 then len7 else beVal ext

/-- Delivered payload: unmasked when the mask bit was set. -/
def framePayload (masked : Bool) (maskKey raw : List Nat) : List Nat :=
  if masked then unmask maskKey raw else raw

/-- Modelled from the spec: frame.rs (the Frame Codec) is not in the repository
snapshot, only its interface is (connection.rs line 28).  Decode of one frame
per section 4.3 and RFC 6455: byte 0 is FIN plus opcode, byte 1 is mask bit
plus 7-bit length, with 16-bit or 64-bit big-endian extended lengths, an
optional 4-byte mask key, then the payload.  Returns the frame and the bytes
consumed, or none when the buffer does not yet hold a complete frame. -/
def decodeOne (buf : List Nat) : Option (Frame × Nat) :=
  match buf with
  | b0 :: b1 :: rest =>
      let fin := decide (128 ≤ b0)
      let opcode := b0 % 16
      let masked := decide (128 ≤ b1)
      let len7 := b1 % 128
      let extLen := frameExtLen len7
      let maskLen := frameMaskLen masked
      if rest.length < extLen + maskLen then none
      else
        let payloadLen := framePayloadLen len7 (rest.take extLen)
        let afterExt := rest.drop extLen
        let maskKey := afterExt.take maskLen
        let body := afterExt.drop maskLen
        if body.length < payloadLen then none
        else
          some ({ opcode := opcode, fin := fin
                , payload := framePayload masked maskKey (body.take payloadLen) }
               , 2 + extLen + maskLen + payloadLen)
  | _ => none

/-- Fuel-driven work loop of the frame parser: emit complete frames from the
front of the buffer while the fuel lasts.  Any fuel at least the buffer length
is enough, since a complete frame consumes at least two bytes. -/
def receiveFramesGo : Nat → List Nat → List Frame × List Nat
  | 0, buf => ([], buf)
  | fuel + 1, buf =>
      match decodeOne buf with
      | none => ([], buf)
      | some (f, k) =>
          let r := receiveFramesGo fuel (buf.drop k)
          (f :: r.1, r.2)

/-- Modelled from the spec: FrameParser::receive per section 4.3, a push parser
that emits every complete frame at the front of the buffer and leaves the
remaining (possibly split) bytes for the next read. -/
def receiveFrames (buf : List Nat) : List Frame × List Nat :=
  receiveFramesGo buf.length buf

/-- Read loop of WebSocketConnection::run (connection.rs lines 55-101): the
leftover buffer is pushed through the frame parser first, then each stream
read extends the remainder and is parsed in turn; returns every frame
delivered to the handler, in order. -/
def ws_run (buf : List Nat) : List (List Nat) → List Frame
  | [] => (receiveFrames buf).1
  | r :: rs => (receiveFrames buf).1 ++ ws_run ((receiveFrames buf).2 ++ r) rs

/-- Token stream of the C4 counterexample message: an EVENT whose payload
object holds a nested object carrying a sig key. -/
def c4Tokens : List JsonEvent :=
  [ .startArray, .valueString "EVENT", .valueString "s", .startObject
  , .fieldName "a", .startObject, .fieldName "sig", .valueString "evil"
  , .endObject, .endObject, .endArray ]

/-- Token stream of an EOSE relay message. -/
def eoseTokens : List JsonEvent :=
  [.startArray, .valueString "EOSE", .valueString "s", .endArray]

/-- Token stream of a kind-4 EVENT relay message. -/
def dmEvTokens : List JsonEvent :=
  [ .startArray, .valueString "EVENT", .valueString "s", .startObject
  , .fieldName "kind", .valueInt 4
  , .fieldName "pubkey", .valueString "alice"
  , .fieldName "content", .valueString "hello"
  , .endObject, .endArray ]

/-- A kind-4 direct message event between alice and bob. -/
def dmEv : Event :=
  { id := "d1", pubkey := "alice", created_at := 7, kind := 4
  , tags := [["p", "bob"]], content := "x", sig := "sg" }

/-- Parse state three levels deep with a pending sig key, for the C4 witness. -/
def c4SigState : ActsonState :=
  { actsonInit with depth := 3, tags_depth := 0, current_field := some "sig" }

/-- Parse state three levels deep, for the C4 witness. -/
def c4DeepState : ActsonState := { actsonInit with depth := 3 }

/-- Event a for the C6 and C7 witnesses. -/
def c6a : Event :=
  { id := "a", pubkey := "", created_at := 5, kind := 1, tags := [], content := "", sig := "" }

/-- Per-relay outcomes for the C6 and C7 witnesses: one successful relay, one
failed relay. -/
def c6Results : List (Except String (List Event)) := [Except.ok [c6a], Except.error "x"]

/-- Event published in the C8 witness. -/
def pubEv : Event :=
  { id := "id1", pubkey := "pk", created_at := 3, kind := 1
  , tags := [], content := "c", sig := "sg" }

/-- Expected Sec-WebSocket-Accept value for the C9 witness (the crypto
collaborator's output is opaque here). -/
def c9Expected : List Nat := asciiBytes "ACCEPTVAL"

/-- One handshake read for the C9 witness: a 101 response whose final bytes
already pipeline a complete one-byte text frame. -/
def c9Chunk : List Nat :=
  asciiBytes "HTTP/1.1 101 Switching Protocols" ++ [13, 10] ++
  asciiBytes "Sec-WebSocket-Accept: ACCEPTVAL" ++ [13, 10, 13, 10] ++ [129, 1, 65]

theorem dedupById_sublist : ∀ (xs : List Event) (seen : List String),
    List.Sublist (dedupById xs seen) xs := by
  intro xs
  induction xs with
  | nil => intro seen; simp [dedupById]
  | cons e rest ih =>
      intro seen
      by_cases h : e.id ∈ seen
      · simpa [dedupById, h] using List.Sublist.cons e (ih seen)
      · simpa [dedupById, h] using List.Sublist.cons₂ e (ih (e.id :: seen))

theorem dedupById_nodup : ∀ (xs : List Event) (seen : List String),
    ((dedupById xs seen).map Event.id).Nodup ∧
      ∀ s ∈ seen, s ∉ (dedupById xs seen).map Event.id := by
  intro xs
  induction xs with
  | nil => intro seen; simp [dedupById]
  | cons e rest ih =>
      intro seen
      by_cases h : e.id ∈ seen
      · simpa [dedupById, h] using ih seen
      · have step := ih (e.id :: seen)
        rw [dedupById, if_neg h]
        constructor
        · rw [List.map_cons, List.nodup_cons]
          exact ⟨step.2 e.id (by simp), step.1⟩
        · intro s hs
          rw [List.map_cons, List.mem_cons]
          rintro (rfl | hmem)
          · exact h hs
          · exact step.2 s (by simp [hs]) hmem

theorem dedupById_complete : ∀ (xs : List Event) (seen : List String) (e : Event),
    e ∈ xs → e.id ∉ seen →
    ∃ e2 ∈ dedupById xs seen, e2.id = e.id := by
  intro xs
  induction xs with
  | nil => intro seen e he; simp at he
  | cons x rest ih =>
      intro seen e he hseen
      by_cases hx : x.id ∈ seen
      · rcases List.mem_cons.mp he with rfl | hmem
        · exact absurd hx hseen
        · rcases ih seen e hmem hseen with ⟨e2, h1, h2⟩
          refine ⟨e2, ?_, h2⟩
          rw [dedupById, if_pos hx]
          exact h1
      · by_cases hid : e.id = x.id
        · refine ⟨x, ?_, hid.symm⟩
          rw [dedupById, if_neg hx]
          simp
        · rcases List.mem_cons.mp he with rfl | hmem
          · simp at hid
          · have hseen2 : e.id ∉ (x.id :: seen) := by
              rw [List.mem_cons]
              push_neg
              exact ⟨hid, hseen⟩
            rcases ih (x.id :: seen) e hmem hseen2 with ⟨e2, h1, h2⟩
            refine ⟨e2, ?_, h2⟩
            rw [dedupById, if_neg hx]
            exact List.mem_cons_of_mem x h1

/-- C1: parsing the relay message EVENT sub1 with the spec's test event is
claimed to yield tags e x and p y; the code instead drops every tag string
(the guard tags_depth = 0 at relay.rs line 439 contradicts the inner
tags_depth = 2 branch at line 440, so current_tag is never filled) and the
parsed event carries empty tags while every scalar field is right.  This
evaluates the parser at the claim's exact input, exhibiting the code bug. -/
theorem c1_event_tags_dropped :
    parse_relay_message_actson "raw" c1Tokens =
      .event "sub1"
        { id := "a", pubkey := "b", created_at := 1, kind := 1
        , tags := [], content := "hi", sig := "s" } ∧
    parse_relay_message_actson "raw" c1Tokens ≠
      .event "sub1"
        { id := "a", pubkey := "b", created_at := 1, kind := 1
        , tags := [["e", "x"], ["p", "y"]], content := "hi", sig := "s" } := by
  constructor
  · decide
  · decide

/-- C2: the claim says every relay feed task sends exactly one Eose even when
its connection fails, and the aggregate consumer therefore reaches its
feed-eose signal once every relay completed.  The code returns from
run_relay_feed_stream without sending anything when connect_async fails
(relay.rs lines 532-538), so with two relays of which one fails to connect the
consumer sees a single Eose and never emits feed-eose; a relay that reaches
the read loop does send exactly one Eose. -/
theorem c2_connect_failure_sends_no_eose :
    run_relay_feed_stream "wss://r" 10 .connectFailed = some [] ∧
    run_relay_feed_stream "wss://r" 10
        (.connected [(0, .text "e" eoseTokens)]) = some [.eose] ∧
    start_feed_stream_consumer 2 0 [.eose] = [] := by
  refine ⟨rfl, by decide, rfl⟩

/-- C3: the claim says that once every relay's EOSE has been observed, each
subsequently stored DM triggers the dm-received notification.  The DM consumer
does implement that phase switch (third conjunct: an Eose followed by a stored
kind-4 event emits dm-sync-done then dm-received), but run_relay_dm_stream
swallows EndOfStoredEvents without forwarding any Eose (relay.rs lines
653-655, first conjunct: a trace with an EOSE then a kind-4 event sends only
the event), so the consumer's eose_count never reaches num_relays and a stored
post-EOSE DM produces no notification (second conjunct). -/
theorem c3_dm_stream_never_forwards_eose :
    run_relay_dm_stream "wss://r"
        (.connected [.text "e" eoseTokens, .text "d" dmEvTokens, .streamEnd]) =
      some [.event { id := "", pubkey := "alice", created_at := 0, kind := 4
                   , tags := [], content := "hello", sig := "" }] ∧
    start_dm_stream_consumer "alice" 1 0 true [(.event dmEv, .ok true)] = [] ∧
    start_dm_stream_consumer "alice" 1 0 true
        [(.eose, .ok true), (.event dmEv, .ok true)] =
      [.dmSyncDone, .dmReceived "bob" dmEv] := by
  refine ⟨by decide, by decide, by decide⟩

/-- C4 counterexample: the claim says a string is stored into a top-level
Event field only when its nesting depth is exactly the expected position
(depth 2, directly inside the event object).  Parsing an EVENT whose payload
nests an object one level deeper shows a depth-3 string landing in the
top-level sig field, because the guard at relay.rs line 439 accepts any depth
of at least 2. -/
theorem c4_counterexample :
    parse_relay_message_actson "raw" c4Tokens =
      .event "s"
        { id := "", pubkey := "", created_at := 0, kind := 0
        , tags := [], content := "", sig := "evil" } := by
  decide

/-- C4 amended: number values are attributed to created_at and kind only at
depth exactly 2; string values are attributed to a top-level scalar field
whenever depth is at least 2, the parser is not inside the tags array, and the
last seen key matches (so strings nested deeper inside objects can leak into
scalar fields), while strings seen inside the tags array never touch the
scalar fields. -/
theorem c4_amended_attribution (st : ActsonState) (s : String) (n : Int) :
    (st.depth ≠ 2 →
      (actsonStep st (.valueInt n)).1.event_created_at = st.event_created_at ∧
      (actsonStep st (.valueInt n)).1.event_kind = st.event_kind ∧
      (actsonStep st (.valueFloat n)).1.event_created_at = st.event_created_at ∧
      (actsonStep st (.valueFloat n)).1.event_kind = st.event_kind) ∧
    (st.tags_depth ≠ 0 →
      (actsonStep st (.valueString s)).1.event_id = st.event_id ∧
      (actsonStep st (.valueString s)).1.event_pubkey = st.event_pubkey ∧
      (actsonStep st (.valueString s)).1.event_content = st.event_content ∧
      (actsonStep st (.valueString s)).1.event_sig = st.event_sig) ∧
    (st.depth ≥ 2 → st.tags_depth = 0 → st.current_field = some "sig" →
      (actsonStep st (.valueString s)).1.event_sig = some s) := by
  refine ⟨?_, ?_, ?_⟩
  · intro hd
    simp [actsonStep, hd]
  · intro ht
    have hguard : ¬ (st.depth ≥ 2 ∧ st.tags_depth = 0) := fun hc => ht hc.2
    by_cases hd : st.depth = 1
    · simp only [actsonStep, if_pos hd]
      split_ifs <;> exact ⟨rfl, rfl, rfl, rfl⟩
    · simp [actsonStep, hd, hguard]
  · intro hd ht hf
    have hd1 : st.depth ≠ 1 := by omega
    have ht2 : ¬ st.tags_depth = 2 := by omega
    simp only [actsonStep, if_neg hd1, if_pos (And.intro hd ht), if_neg ht2, hf]
    rw [if_neg (show ¬ ("sig" : String) = "id" by decide)]
    rw [if_neg (show ¬ ("sig" : String) = "pubkey" by decide)]
    rw [if_neg (show ¬ ("sig" : String) = "content" by decide)]
    simp

/-- C4 amended witness: the general attribution theorem applied at a depth-3
state whose last key is sig (the string is stored), and at a depth-3 state for
a number (created_at and kind are untouched). -/
theorem c4_amended_witness :
    (c4SigState.depth ≥ 2 ∧
     (actsonStep c4SigState (.valueString "x")).1.event_sig = some "x") ∧
    (c4DeepState.depth ≠ 2 ∧
     (actsonStep c4DeepState (.valueInt 9)).1.event_created_at =
       c4DeepState.event_created_at) := by
  constructor
  · exact ⟨by decide,
      (c4_amended_attribution c4SigState "x" 9).2.2 (by decide) (by decide) (by decide)⟩
  · exact ⟨by decide, ((c4_amended_attribution c4DeepState "x" 9).1 (by decide)).1⟩

/-- C5 counterexample: the claim says every structurally malformed relay
message (including a NOTICE whose second element is not a string, or an OK
whose message element is missing) is an error; the code instead silently
defaults: NOTICE 42 parses to the notice Unknown notice and OK id1 with no
success or message elements parses to Ok id1 false with empty message. -/
theorem c5_counterexample :
    parse_relay_message (.arr [.str "NOTICE", .num 42]) "raw" =
      .ok (.notice "Unknown notice") ∧
    parse_relay_message (.arr [.str "OK", .str "id1"]) "raw" =
      .ok (.ok "id1" false "") := ⟨rfl, rfl⟩

/-- C5 amended: in the blocking-path parser parse_relay_message, a non-array
message, a non-string first element, an EVENT or EOSE whose subscription id
element is not a string, and any error from the event payload parser
(in particular a payload object lacking the id, pubkey or sig key) are errors
surfaced to the caller; but a NOTICE whose second element is not a string is
silently defaulted to the message Unknown notice, and an OK with a non-string
id, non-boolean success or missing message silently defaults those fields to
the empty string, false and the empty string.  The streaming parser
parse_relay_message_actson never surfaces structural errors at all: a
non-string first element, or an EVENT whose subscription id element is not a
string, yields Unknown with the raw text; an EOSE with a missing subscription
id defaults it to the empty string; a bare NOTICE defaults to Unknown notice;
and a bare OK defaults every field. -/
theorem c5_amended_malformed :
    (∀ (raw : String) (b : Bool) (m : Int) (s : String),
       parse_relay_message (.bool b) raw = .error "Relay message is not an array" ∧
       parse_relay_message (.num m) raw = .error "Relay message is not an array" ∧
       parse_relay_message (.str s) raw = .error "Relay message is not an array" ∧
       parse_relay_message .null raw = .error "Relay message is not an array") ∧
    (∀ (raw : String) (xs : List JsonValue), (xs.getD 0 .null).as_str = none →
       parse_relay_message (.arr xs) raw = .error "Message type is not a string") ∧
    (∀ (raw : String) (m : Int) (rest : List JsonValue),
       parse_relay_message (.arr (.str "EVENT" :: .num m :: rest)) raw =
         .error "Missing subscription_id in EVENT") ∧
    (∀ raw : String,
       parse_relay_message (.arr [.str "EOSE"]) raw =
         .error "Missing subscription_id in EOSE") ∧
    (∀ (raw sub e : String) (v : JsonValue), parse_event v = .error e →
       parse_relay_message (.arr [.str "EVENT", .str sub, v]) raw = .error e) ∧
    (∀ (raw sub : String),
       parse_relay_message (.arr [.str "EVENT", .str sub, .obj []]) raw =
         .error "Missing id field") ∧
    (∀ (raw sub i : String),
       parse_relay_message (.arr [.str "EVENT", .str sub, .obj [("id", .str i)]]) raw =
         .error "Missing pubkey field") ∧
    (∀ (raw sub i p : String),
       parse_relay_message
           (.arr [.str "EVENT", .str sub, .obj [("id", .str i), ("pubkey", .str p)]]) raw =
         .error "Missing sig field") ∧
    (∀ (raw : String) (v : JsonValue) (rest : List JsonValue), v.as_str = none →
       parse_relay_message (.arr (.str "NOTICE" :: v :: rest)) raw =
         .ok (.notice "Unknown notice")) ∧
    (∀ raw : String,
       parse_relay_message (.arr [.str "OK"]) raw = .ok (.ok "" false "")) ∧
    (∀ (raw : String) (n : Int),
       parse_relay_message_actson raw [.startArray, .valueInt n, .endArray] =
         .unknown raw) ∧
    (∀ (raw : String) (n : Int),
       parse_relay_message_actson raw
           [.startArray, .valueString "EVENT", .valueInt n, .startObject, .endObject,
            .endArray] =
         .unknown raw) ∧
    (∀ raw : String,
       parse_relay_message_actson raw [.startArray, .valueString "EOSE", .endArray] =
         .endOfStoredEvents "") ∧
    (∀ raw : String,
       parse_relay_message_actson raw [.startArray, .valueString "NOTICE", .endArray] =
         .notice "Unknown notice") ∧
    (∀ raw : String,
       parse_relay_message_actson raw [.startArray, .valueString "OK", .endArray] =
         .ok "" false "") := by
  refine ⟨?_, ?_, ?_, ?_, ?_, ?_, ?_, ?_, ?_, ?_, ?_, ?_, ?_, ?_, ?_⟩
  · intro raw b m s
    exact ⟨rfl, rfl, rfl, rfl⟩
  · intro raw xs h
    simp only [parse_relay_message, JsonValue.is_array, JsonValue.idx]
    rw [h]
    simp
  · intro raw m rest
    rfl
  · intro raw
    rfl
  · intro raw sub e v h
    simp only [parse_relay_message, JsonValue.is_array, JsonValue.idx,
      List.getD_cons_succ, List.getD_cons_zero, JsonValue.as_str]
    rw [h]
    rfl
  · intro raw sub
    have hpe : parse_event (.obj []) = .error "Missing id field" := by
      have ht : tokensOf (.obj []) = [.startObject, .endObject] := by
        simp [tokensOf, tokensOfObj]
      simp only [parse_event, ht]
      rfl
    simp only [parse_relay_message, JsonValue.is_array, JsonValue.idx,
      List.getD_cons_succ, List.getD_cons_zero, JsonValue.as_str]
    rw [hpe]
    rfl
  · intro raw sub i
    have hpe : parse_event (.obj [("id", .str i)]) = .error "Missing pubkey field" := by
      have ht : tokensOf (.obj [("id", .str i)]) =
          [.startObject, .fieldName "id", .valueString i, .endObject] := by
        simp [tokensOf, tokensOfObj, tokensOfArr]
      simp only [parse_event, ht]
      rfl
    simp only [parse_relay_message, JsonValue.is_array, JsonValue.idx,
      List.getD_cons_succ, List.getD_cons_zero, JsonValue.as_str]
    rw [hpe]
    rfl
  · intro raw sub i p
    have hpe : parse_event (.obj [("id", .str i), ("pubkey", .str p)]) =
        .error "Missing sig field" := by
      have ht : tokensOf (.obj [("id", .str i), ("pubkey", .str p)]) =
          [.startObject, .fieldName "id", .valueString i,
           .fieldName "pubkey", .valueString p, .endObject] := by
        simp [tokensOf, tokensOfObj, tokensOfArr]
      simp only [parse_event, ht]
      rfl
    simp only [parse_relay_message, JsonValue.is_array, JsonValue.idx,
      List.getD_cons_succ, List.getD_cons_zero, JsonValue.as_str]
    rw [hpe]
    rfl
  · intro raw v rest h
    simp only [parse_relay_message, JsonValue.is_array, JsonValue.idx,
      List.getD_cons_succ, List.getD_cons_zero]
    simp [h]
    rfl
  · intro raw
    rfl
  · intro raw n
    rfl
  · intro raw n
    rfl
  · intro raw
    rfl
  · intro raw
    rfl
  · intro raw
    rfl

/-- C5 amended witness: the amended theorem applied at concrete inputs of each
guarded conjunct: a boolean message, an array whose first element is a number,
an EVENT whose payload lacks the sig key (through the error-propagation
conjunct), and a NOTICE whose second element is a number. -/
theorem c5_amended_witness :
    parse_relay_message (.bool true) "r" = .error "Relay message is not an array" ∧
    parse_relay_message (.arr [.num 7]) "r" = .error "Message type is not a string" ∧
    parse_relay_message (.arr [.str "EVENT", .str "s", .obj [("id", .str "i")]]) "r" =
      .error "Missing pubkey field" ∧
    parse_relay_message (.arr [.str "NOTICE", .num 42]) "r" =
      .ok (.notice "Unknown notice") := by
  refine ⟨(c5_amended_malformed.1 "r" true 7 "s").1, ?_, ?_, ?_⟩
  · exact c5_amended_malformed.2.1 "r" [.num 7] (by rfl)
  · exact c5_amended_malformed.2.2.2.2.1 "r" "s" "Missing pubkey field"
      (.obj [("id", .str "i")])
      (by
        have ht : tokensOf (.obj [("id", .str "i")]) =
            [.startObject, .fieldName "id", .valueString "i", .endObject] := by
          simp [tokensOf, tokensOfObj, tokensOfArr]
        simp only [parse_event, ht]
        rfl)
  · exact c5_amended_malformed.2.2.2.2.2.2.2.2.1 "r" (.num 42) [] (by rfl)

theorem feedLe_trans : ∀ a b c : Event, feedLe a b → feedLe b c → feedLe a c := by
  intro a b c hab hbc
  simp only [feedLe, decide_eq_true_eq] at *
  omega

theorem feedLe_total : ∀ a b : Event, feedLe a b || feedLe b a := by
  intro a b
  simp only [feedLe, Bool.or_eq_true, decide_eq_true_eq]
  omega

theorem replyLe_trans : ∀ a b c : Event, replyLe a b → replyLe b c → replyLe a c := by
  intro a b c hab hbc
  simp only [replyLe, decide_eq_true_eq] at *
  omega

theorem replyLe_total : ∀ a b : Event, replyLe a b || replyLe b a := by
  intro a b
  simp only [replyLe, Bool.or_eq_true, decide_eq_true_eq]
  omega

theorem okEvents_mem {results : List (Except String (List Event))} {e : Event} :
    e ∈ okEvents results ↔ ∃ evs, Except.ok evs ∈ results ∧ e ∈ evs := by
  unfold okEvents
  rw [List.mem_flatMap]
  constructor
  · rintro ⟨r, hr, he⟩
    cases r with
    | ok evs => exact ⟨evs, hr, he⟩
    | error _ => simp at he
  · rintro ⟨evs, hevs, he⟩
    exact ⟨.ok evs, hevs, he⟩

/-- C6: whenever the multi-relay fetch-and-merge succeeds, its result carries
each event id at most once, is ordered by created_at descending, is truncated
to the requested limit, contains only events some successful relay returned,
and covers the id of every fetched event unless the limit truncated the list;
the reply-thread merge likewise carries each id at most once but is ordered by
created_at ascending. -/
theorem c6_merge_dedup_sorted :
    (∀ (results : List (Except String (List Event))) (limit : Nat) (l : List Event),
       fetch_notes_from_relays results limit = .ok l →
       (l.map Event.id).Nodup ∧
       l.Pairwise (fun a b => b.created_at ≤ a.created_at) ∧
       l.length ≤ limit ∧
       (∀ e ∈ l, ∃ evs, Except.ok evs ∈ results ∧ e ∈ evs) ∧
       (∀ e ∈ okEvents results, (∃ e2 ∈ l, e2.id = e.id) ∨ l.length = limit)) ∧
    (∀ (event_id : String) (results : List (Except String (List Event))) (l : List Event),
       fetch_replies_to_event event_id results = .ok l →
       (l.map Event.id).Nodup ∧
       l.Pairwise (fun a b => a.created_at ≤ b.created_at)) := by
  constructor
  · intro results limit l h
    set sorted := (okEvents results).mergeSort feedLe with hsorted
    set uniq := dedupById sorted [] with huniq
    have sortedP : sorted.Pairwise (fun a b => b.created_at ≤ a.created_at) := by
      refine List.Pairwise.imp ?_ (List.sorted_mergeSort feedLe_trans feedLe_total (okEvents results))
      intro a b hab
      simpa [feedLe] using hab
    have uniqSub : List.Sublist uniq sorted := dedupById_sublist sorted []
    have uniqP : uniq.Pairwise (fun a b => b.created_at ≤ a.created_at) :=
      List.Pairwise.sublist uniqSub sortedP
    have uniqN : (uniq.map Event.id).Nodup := (dedupById_nodup sorted []).1
    have memProv : ∀ e ∈ uniq, ∃ evs, Except.ok evs ∈ results ∧ e ∈ evs := by
      intro e he
      have hmem : e ∈ sorted := uniqSub.subset he
      rw [hsorted, List.mem_mergeSort] at hmem
      exact okEvents_mem.mp hmem
    have memCompl : ∀ e ∈ okEvents results, ∃ e2 ∈ uniq, e2.id = e.id := by
      intro e he
      have hs : e ∈ sorted := by rw [hsorted, List.mem_mergeSort]; exact he
      exact dedupById_complete sorted [] e hs (by simp)
    simp only [fetch_notes_from_relays] at h
    split_ifs at h with h0 h1 hl
    · rw [Except.ok.injEq] at h
      subst h
      refine ⟨?_, ?_, ?_, ?_, ?_⟩
      · rw [List.map_take]
        exact List.Nodup.sublist (List.take_sublist _ _) uniqN
      · exact List.Pairwise.sublist (List.take_sublist _ _) uniqP
      · simp
      · intro e he
        exact memProv e ((List.take_sublist _ _).subset he)
      · intro e _
        right
        rw [List.length_take]
        omega
    · rw [Except.ok.injEq] at h
      subst h
      refine ⟨uniqN, uniqP, by omega, memProv, ?_⟩
      intro e he
      exact Or.inl (memCompl e he)
  · intro event_id results l h
    simp only [fetch_replies_to_event] at h
    split_ifs at h with h0 h1
    · rw [Except.ok.injEq] at h
      subst h
      simp
    · rw [Except.ok.injEq] at h
      set uniq := dedupById (okEvents results) [] with huniq
      subst h
      constructor
      · have hperm : List.Perm (uniq.mergeSort replyLe) uniq := List.mergeSort_perm uniq replyLe
        exact ((hperm.map Event.id).nodup_iff).mpr (dedupById_nodup (okEvents results) []).1
      · refine List.Pairwise.imp ?_ (List.sorted_mergeSort replyLe_trans replyLe_total uniq)
        intro a b hab
        simpa [replyLe] using hab

/-- C7: the multi-relay fetch fails exactly when every configured relay failed
(an empty relay list is also an error); one successful relay is enough for a
merged Ok result. -/
theorem c7_all_fail_iff_error :
    ∀ (results : List (Except String (List Event))) (limit : Nat),
      (∃ msg, fetch_notes_from_relays results limit = .error msg) ↔
        (∀ r ∈ results, fetchFailed r = true) := by
  intro results limit
  by_cases h0 : results.isEmpty
  · constructor
    · intro _ r hr
      rw [List.isEmpty_iff] at h0
      subst h0
      simp at hr
    · intro _
      exact ⟨"No relays provided. Configure relays in Settings.",
        by simp [fetch_notes_from_relays, h0]⟩
  · constructor
    · intro ⟨msg, h⟩ r hr
      simp only [fetch_notes_from_relays, if_neg h0] at h
      split_ifs at h with h1
      · exact (List.filter_length_eq_length.mp h1) r hr
    · intro hall
      have h1 : (results.filter fetchFailed).length = results.length :=
        List.filter_length_eq_length.mpr hall
      exact ⟨"Could not reach any of the configured relays. Check your connection and relay settings.",
        by simp only [fetch_notes_from_relays, if_neg h0, if_pos h1]⟩

/-- C6 witness: the merge theorem applied to one successful relay returning
one event and one failed relay, with limit 5. -/
theorem c6_witness :
    fetch_notes_from_relays c6Results 5 = .ok [c6a] ∧
    fetch_replies_to_event "eid" c6Results = .ok [c6a] ∧
    (([c6a].map Event.id).Nodup ∧
     List.Pairwise (fun a b => b.created_at ≤ a.created_at) [c6a] ∧
     [c6a].length ≤ 5 ∧
     (∀ e ∈ [c6a], ∃ evs, Except.ok evs ∈ c6Results ∧ e ∈ evs) ∧
     (∀ e ∈ okEvents c6Results, (∃ e2 ∈ [c6a], e2.id = e.id) ∨ [c6a].length = 5)) ∧
    (([c6a].map Event.id).Nodup ∧
     List.Pairwise (fun a b => a.created_at ≤ b.created_at) [c6a]) := by
  have h1 : fetch_notes_from_relays c6Results 5 = .ok [c6a] := by
    simp [fetch_notes_from_relays, c6Results, okEvents, fetchFailed, dedupById]
  have h2 : fetch_replies_to_event "eid" c6Results = .ok [c6a] := by
    have he : ("eid" : String).isEmpty = false := by decide
    simp [fetch_replies_to_event, c6Results, okEvents, dedupById, he]
  exact ⟨h1, h2, c6_merge_dedup_sorted.1 c6Results 5 [c6a] h1,
    c6_merge_dedup_sorted.2 "eid" c6Results [c6a] h2⟩

/-- C7 witness: the error-iff-all-fail theorem applied in both directions: two
failed relays give an overall error, and with one successful relay the result
is not an error. -/
theorem c7_witness :
    (∃ msg, fetch_notes_from_relays [Except.error "x", Except.error "y"] 3 = .error msg) ∧
    ¬ (∃ msg, fetch_notes_from_relays c6Results 3 = .error msg) := by
  constructor
  · exact (c7_all_fail_iff_error [Except.error "x", Except.error "y"] 3).mpr (by decide)
  · intro hcontra
    have : ∀ r ∈ c6Results, fetchFailed r = true :=
      (c7_all_fail_iff_error c6Results 3).mp hcontra
    have hbad := this (Except.ok [c6a]) (by simp [c6Results])
    simp [fetchFailed] at hbad

/-- C8: once the event is sent, the publish wait loop ends at whichever comes
first within the deadline: a deadline check past the timeout yields the
synthetic failure result with message Timeout waiting for response whatever
arrives; an OK whose id matches the published event ends the wait with the
relay's verdict and message as a PublishResult (not a transport error); an OK
for a different id is skipped; a NOTICE mentioning the event id ends the wait
as a failure carrying the notice text. -/
theorem c8_publish_wait
    (url : String) (ev : Event) (timeout t : Nat) (rest : PublishTrace)
    (s : Bool) (m eid : String) (item : Except String JsonValue) :
    (timeout < t →
      publish_event_to_relay url ev timeout (.ok ()) ((t, item) :: rest) =
        .ok (some { relay_url := url, success := false
                  , message := "Timeout waiting for response" })) ∧
    (t ≤ timeout →
      publish_event_to_relay url ev timeout (.ok ())
          ((t, .ok (.arr [.str "OK", .str ev.id, .bool s, .str m])) :: rest) =
        .ok (some { relay_url := url, success := s, message := m })) ∧
    (t ≤ timeout → eid ≠ ev.id →
      publish_event_to_relay url ev timeout (.ok ())
          ((t, .ok (.arr [.str "OK", .str eid, .bool s, .str m])) :: rest) =
        publish_event_to_relay url ev timeout (.ok ()) rest) ∧
    (t ≤ timeout → strContains m ev.id = true →
      publish_event_to_relay url ev timeout (.ok ())
          ((t, .ok (.arr [.str "NOTICE", .str m])) :: rest) =
        .ok (some { relay_url := url, success := false, message := m })) := by
  refine ⟨?_, ?_, ?_, ?_⟩
  · intro ht
    simp only [publish_event_to_relay, publishWaitLoop, if_pos ht]
  · intro ht
    simp only [publish_event_to_relay, publishWaitLoop, if_neg (Nat.not_lt.mpr ht)]
    simp [parse_relay_message, JsonValue.idx, JsonValue.is_array, JsonValue.as_str,
      JsonValue.as_bool]
  · intro ht heid
    simp only [publish_event_to_relay, publishWaitLoop, if_neg (Nat.not_lt.mpr ht)]
    simp [parse_relay_message, JsonValue.idx, JsonValue.is_array, JsonValue.as_str,
      JsonValue.as_bool, heid]
  · intro ht hc
    simp only [publish_event_to_relay, publishWaitLoop, if_neg (Nat.not_lt.mpr ht)]
    simp [parse_relay_message, JsonValue.idx, JsonValue.is_array, JsonValue.as_str,
      JsonValue.as_bool, hc]

/-- C8 witness: the wait-loop theorem applied concretely: an OK id1 false
rejected-spam reply within the deadline yields the failed PublishResult with
that message, and a deadline check at 11 seconds against a 10-second timeout
yields the synthetic timeout result. -/
theorem c8_witness :
    (0 ≤ 10 ∧
     publish_event_to_relay "wss://r" pubEv 10 (.ok ())
         [(0, .ok (.arr [.str "OK", .str "id1", .bool false, .str "rejected: spam"]))] =
       .ok (some { relay_url := "wss://r", success := false
                 , message := "rejected: spam" })) ∧
    (10 < 11 ∧
     publish_event_to_relay "wss://r" pubEv 10 (.ok ()) [(11, .error "late")] =
       .ok (some { relay_url := "wss://r", success := false
                 , message := "Timeout waiting for response" })) := by
  constructor
  · refine ⟨by omega, ?_⟩
    have hid : pubEv.id = "id1" := rfl
    have := (c8_publish_wait "wss://r" pubEv 10 0 [] false "rejected: spam" "" (.error "")).2.1
      (by omega)
    rw [hid] at this
    exact this
  · exact ⟨by omega,
      (c8_publish_wait "wss://r" pubEv 10 11 [] false "" "" (.error "late")).1 (by omega)⟩

theorem dmLoop_only_kind4 : ∀ (reads : List WsRead) (out : List StreamMessage),
    dmLoop reads = some out → ∀ m ∈ out, ∃ ev, m = .event ev ∧ ev.kind = KIND_DM := by
  intro reads
  induction reads with
  | nil => intro out h; simp [dmLoop] at h
  | cons r rest ih =>
      intro out h m hm
      cases r with
      | text raw tokens =>
          simp only [dmLoop] at h
          cases hp : parse_relay_message_actson raw tokens with
          | event sid ev =>
              rw [hp] at h
              dsimp only at h
              by_cases hk : ev.kind = KIND_DM
              · rw [if_pos hk] at h
                cases ho : dmLoop rest with
                | none => rw [ho] at h; simp at h
                | some out2 =>
                    rw [ho] at h
                    rw [show Option.map (fun x => StreamMessage.event ev :: x) (some out2) =
                          some (StreamMessage.event ev :: out2) from rfl] at h
                    rw [Option.some_inj] at h
                    subst h
                    rcases List.mem_cons.mp hm with rfl | hmem
                    · exact ⟨ev, rfl, hk⟩
                    · exact ih out2 ho m hmem
              · rw [if_neg hk] at h
                exact ih out h m hm
          | endOfStoredEvents sid => rw [hp] at h; dsimp only at h; exact ih out h m hm
          | notice msg => rw [hp] at h; dsimp only at h; exact ih out h m hm
          | ok a b c => rw [hp] at h; dsimp only at h; exact ih out h m hm
          | unknown raw2 => rw [hp] at h; dsimp only at h; exact ih out h m hm
      | closeOrError =>
          simp only [dmLoop, Option.some.injEq] at h
          subst h
          simp at hm
      | other =>
          simp only [dmLoop] at h
          exact ih out h m hm
      | streamEnd =>
          simp only [dmLoop, Option.some.injEq] at h
          subst h
          simp at hm
      | readTimeout =>
          simp only [dmLoop] at h
          exact ih out h m hm

/-- C10: everything a connected DM relay task sends on its channel is an Event
message whose kind is 4 (KIND_DM); non-kind-4 events and EOSE messages produce
no output, and in particular no Eose marker is ever sent. -/
theorem c10_dm_stream_only_kind4 :
    ∀ (url : String) (reads : List WsRead) (out : List StreamMessage),
      run_relay_dm_stream url (.connected reads) = some out →
      (∀ ev : Event, StreamMessage.event ev ∈ out → ev.kind = KIND_DM) ∧
      StreamMessage.eose ∉ out := by
  intro url reads out h
  simp only [run_relay_dm_stream] at h
  constructor
  · intro ev hev
    rcases dmLoop_only_kind4 reads out h _ hev with ⟨ev2, he, hk⟩
    cases he
    exact hk
  · intro hc
    rcases dmLoop_only_kind4 reads out h _ hc with ⟨ev2, he, _⟩
    simp at he

/-- C10 witness: the kind-4 invariant applied to a concrete connected trace
delivering one kind-4 event and then end of stream. -/
theorem c10_witness :
    run_relay_dm_stream "wss://r" (.connected [.text "d" dmEvTokens, .streamEnd]) =
      some [.event { id := "", pubkey := "alice", created_at := 0, kind := 4
                   , tags := [], content := "hello", sig := "" }] ∧
    (∀ ev : Event,
       StreamMessage.event ev ∈
         [StreamMessage.event
           { id := "", pubkey := "alice", created_at := 0, kind := 4
           , tags := [], content := "hello", sig := "" }] → ev.kind = KIND_DM) := by
  constructor
  · decide
  · exact (c10_dm_stream_only_kind4 "wss://r" [.text "d" dmEvTokens, .streamEnd] _
      (by decide)).1

theorem decodeOne_bounds : ∀ (buf : List Nat) (f : Frame) (k : Nat),
    decodeOne buf = some (f, k) → 2 ≤ k ∧ k ≤ buf.length := by
  intro buf f k h
  match buf with
  | [] => simp [decodeOne] at h
  | [b0] => simp [decodeOne] at h
  | b0 :: b1 :: rest =>
    simp only [decodeOne] at h
    split_ifs at h with h1 h2
    injection h with h
    have hk := congrArg Prod.snd h
    simp only at hk
    simp only [List.length_drop] at h2
    simp only [List.length_cons]
    omega

theorem decodeOne_append : ∀ (buf c : List Nat) (f : Frame) (k : Nat),
    decodeOne buf = some (f, k) → decodeOne (buf ++ c) = some (f, k) := by
  intro buf c f k h
  match buf with
  | [] => simp [decodeOne] at h
  | [b0] => simp [decodeOne] at h
  | b0 :: b1 :: rest =>
    simp only [decodeOne] at h
    split_ifs at h with h1 h2
    simp only [List.length_drop] at h2
    simp only [List.cons_append, decodeOne]
    have he : frameExtLen (b1 % 128) + frameMaskLen (decide (128 ≤ b1)) ≤ rest.length := by
      omega
    rw [List.take_append_of_le_length (by omega)]
    rw [List.drop_append_of_le_length (by omega)]
    rw [if_neg (by simp only [List.length_append]; omega)]
    rw [List.take_append_of_le_length (by simp only [List.length_drop]; omega)]
    rw [List.drop_append_of_le_length (by simp only [List.length_drop]; omega)]
    rw [if_neg (by simp only [List.length_append, List.length_drop]; omega)]
    rw [List.take_append_of_le_length (by simp only [List.length_drop]; omega)]
    exact h

theorem receiveFramesGo_congr : ∀ (f1 : Nat) (buf : List Nat) (f2 : Nat),
    buf.length ≤ f1 → buf.length ≤ f2 →
    receiveFramesGo f1 buf = receiveFramesGo f2 buf := by
  intro f1
  induction f1 with
  | zero =>
      intro buf f2 h1 h2
      have hb : buf = [] := List.length_eq_zero.mp (by omega)
      subst hb
      cases f2 with
      | zero => rfl
      | succ n => simp [receiveFramesGo, decodeOne]
  | succ m ih =>
      intro buf f2 h1 h2
      cases hd : decodeOne buf with
      | none =>
          cases f2 with
          | zero =>
              have hb : buf = [] := List.length_eq_zero.mp (by omega)
              subst hb
              simp [receiveFramesGo, decodeOne]
          | succ n => simp [receiveFramesGo, hd]
      | some fk =>
          obtain ⟨f, k⟩ := fk
          have hb := decodeOne_bounds buf f k hd
          cases f2 with
          | zero => omega
          | succ n =>
              simp only [receiveFramesGo, hd]
              rw [ih (buf.drop k) n (by simp only [List.length_drop]; omega)
                (by simp only [List.length_drop]; omega)]

theorem receiveFrames_eq_none (buf : List Nat) (h : decodeOne buf = none) :
    receiveFrames buf = ([], buf) := by
  unfold receiveFrames
  cases hl : buf.length with
  | zero => rfl
  | succ n => simp [receiveFramesGo, h]

theorem receiveFrames_eq_some (buf : List Nat) (f : Frame) (k : Nat)
    (h : decodeOne buf = some (f, k)) :
    receiveFrames buf =
      (f :: (receiveFrames (buf.drop k)).1, (receiveFrames (buf.drop k)).2) := by
  have hb := decodeOne_bounds buf f k h
  unfold receiveFrames
  obtain ⟨m, hm⟩ : ∃ m, buf.length = m + 1 := ⟨buf.length - 1, by omega⟩
  rw [hm]
  simp only [receiveFramesGo, h]
  rw [receiveFramesGo_congr m (buf.drop k) (buf.drop k).length
    (by simp only [List.length_drop]; omega) (Nat.le_refl _)]

theorem receiveFrames_append_aux : ∀ (n : Nat) (buf c : List Nat), buf.length ≤ n →
    receiveFrames (buf ++ c) =
      ((receiveFrames buf).1 ++ (receiveFrames ((receiveFrames buf).2 ++ c)).1,
       (receiveFrames ((receiveFrames buf).2 ++ c)).2) := by
  intro n
  induction n with
  | zero =>
      intro buf c h
      have hb : buf = [] := List.length_eq_zero.mp (by omega)
      subst hb
      simp [receiveFrames_eq_none [] (by simp [decodeOne])]
  | succ m ih =>
      intro buf c h
      cases hd : decodeOne buf with
      | none =>
          rw [receiveFrames_eq_none buf hd]
          simp
      | some fk =>
          obtain ⟨f, k⟩ := fk
          have hb := decodeOne_bounds buf f k hd
          rw [receiveFrames_eq_some buf f k hd]
          rw [receiveFrames_eq_some (buf ++ c) f k (decodeOne_append buf c f k hd)]
          rw [List.drop_append_of_le_length (by omega)]
          rw [ih (buf.drop k) c (by simp only [List.length_drop]; omega)]
          simp

theorem receiveFrames_append (buf c : List Nat) :
    receiveFrames (buf ++ c) =
      ((receiveFrames buf).1 ++ (receiveFrames ((receiveFrames buf).2 ++ c)).1,
       (receiveFrames ((receiveFrames buf).2 ++ c)).2) :=
  receiveFrames_append_aux buf.length buf c (Nat.le_refl _)

theorem ws_run_eq : ∀ (reads : List (List Nat)) (buf : List Nat),
    ws_run buf reads = (receiveFrames (buf ++ reads.flatten)).1 := by
  intro reads
  induction reads with
  | nil => intro buf; simp [ws_run]
  | cons r rs ih =>
      intro buf
      simp only [ws_run, List.flatten_cons]
      rw [ih ((receiveFrames buf).2 ++ r)]
      rw [receiveFrames_append buf (r ++ rs.flatten)]
      rw [List.append_assoc]

theorem connectHandshakeLoop_spec : ∀ (chunks : List (List Nat)) (expected acc : List Nat)
    (conn : WebSocketConnection),
    connectHandshakeLoop expected acc chunks = some conn →
    ∃ k i, k ≤ chunks.length ∧
      find_header_end (acc ++ (chunks.take k).flatten) = some i ∧
      conn.read_buf = (acc ++ (chunks.take k).flatten).drop (i + 4) := by
  intro chunks
  induction chunks with
  | nil => intro expected acc conn h; simp [connectHandshakeLoop] at h
  | cons chunk rest ih =>
      intro expected acc conn h
      simp only [connectHandshakeLoop] at h
      split_ifs at h with hemp
      cases hp : parse_101_response (acc ++ chunk) with
      | none =>
          rw [hp] at h
          dsimp only at h
          rcases ih expected (acc ++ chunk) conn h with ⟨k, i, hk, hf, hb⟩
          refine ⟨k + 1, i, by simp only [List.length_cons]; omega, ?_, ?_⟩
          · rw [List.take_succ_cons, List.flatten_cons, ← List.append_assoc]
            exact hf
          · rw [List.take_succ_cons, List.flatten_cons, ← List.append_assoc]
            exact hb
      | some resp =>
          rw [hp] at h
          dsimp only at h
          split_ifs at h with hst
          cases hv : verify_accept resp.accept expected with
          | error e =>
              rw [hv] at h
              simp at h
          | ok u =>
              rw [hv] at h
              dsimp only at h
              rw [Option.some_inj] at h
              unfold parse_101_response at hp
              cases hfe : find_header_end (acc ++ chunk) with
              | none => rw [hfe] at hp; simp at hp
              | some p =>
                  rw [hfe] at hp
                  dsimp only at hp
                  cases hsp : splitOnCRLF ((acc ++ chunk).take p) with
                  | nil => rw [hsp] at hp; simp at hp
                  | cons s0 srest =>
                      rw [hsp] at hp
                      dsimp only at hp
                      rw [Option.some_inj] at hp
                      have hbo : resp.body_offset = p + 4 := by rw [← hp]
                      refine ⟨1, p, by simp, ?_, ?_⟩
                      · simpa using hfe
                      · rw [← h, hbo]
                        simp

/-- C9: when the handshake succeeds, the connection's initial read buffer is
exactly the bytes after the first CR LF CR LF of the accumulated handshake
reads (nothing dropped, nothing invented), and the run loop feeds that buffer
through the frame parser before any further stream read: the frames it
delivers are exactly those of the contiguous byte stream leftover-then-reads,
so pipelined frame bytes are never discarded. -/
theorem c9_handshake_leftover_preserved :
    ∀ (expected : List Nat) (chunks : List (List Nat)) (conn : WebSocketConnection)
      (reads : List (List Nat)),
      WebSocketClient_connect expected chunks = some conn →
      (∃ k i, k ≤ chunks.length ∧
         find_header_end ((chunks.take k).flatten) = some i ∧
         conn.read_buf = ((chunks.take k).flatten).drop (i + 4)) ∧
      ws_run conn.read_buf reads = (receiveFrames (conn.read_buf ++ reads.flatten)).1 := by
  intro expected chunks conn reads h
  constructor
  · rcases connectHandshakeLoop_spec chunks expected [] conn h with ⟨k, i, hk, hf, hb⟩
    exact ⟨k, i, hk, by simpa using hf, by simpa using hb⟩
  · exact ws_run_eq reads conn.read_buf

/-- C9 witness: the preservation theorem applied to a concrete pipelined
handshake; the connection's buffer is the three frame bytes after the header
terminator, and running with one later read parses the same frames as the
contiguous stream. -/
theorem c9_witness :
    WebSocketClient_connect c9Expected [c9Chunk] = some ⟨[129, 1, 65]⟩ ∧
    (∃ k i, k ≤ [c9Chunk].length ∧
       find_header_end (([c9Chunk].take k).flatten) = some i ∧
       (WebSocketConnection.mk [129, 1, 65]).read_buf =
         (([c9Chunk].take k).flatten).drop (i + 4)) ∧
    ws_run [129, 1, 65] [[130, 1, 66]] =
      (receiveFrames ([129, 1, 65] ++ [[130, 1, 66]].flatten)).1 := by
  have h : WebSocketClient_connect c9Expected [c9Chunk] = some ⟨[129, 1, 65]⟩ := by decide
  have happ := c9_handshake_leftover_preserved c9Expected [c9Chunk] ⟨[129, 1, 65]⟩
    [[130, 1, 66]] h
  exact ⟨h, happ.1, happ.2⟩
